import Mathlib

/-!
Shallow embedding of the audio/MIDI engine in `src/host/engine.cc` (the
`Engine` class of the clap-host application), together with theorems about
its state machine, buffer lifecycle, audio callback and MIDI translation.

Conventions:
* C `double` arithmetic is modelled over `ℚ`; the conversion
  `int32_t x = d` (truncation toward zero) is `truncToInt`.
* Machine-integer fields that cannot overflow in any realistic execution
  (`int64_t _steadyTime`) are modelled as `ℤ`.
* Fallible steps (C++ exceptions, failing `assert`s, out-of-bounds reads)
  are modelled with `Option`: `none` means the fault occurred.
* The plugin collaborator (`_pluginHost`) is external; calls made on it are
  recorded in a trace of `HostCall`s.
-/

/-! ## MIDI event timing (Engine::audioCallback, lines 179-221) -/

/-- Truncation toward zero of a rational, modelling the C conversion from
`double` to `int32_t` (C++ [conv.fpint]): floor for nonnegative values,
ceiling for negative ones. -/
def truncToInt (x : ℚ) : ℤ :=
  if 0 ≤ x then ⌊x⌋ else ⌈x⌉

/-- Sample-offset computation of `Engine::audioCallback` (lines 184-190):
`deltaMs = currentTime - msgTime`, `deltaSample = deltaMs * sampleRate / 1000`,
then `if (deltaSample >= frameCount) deltaSample = frameCount - 1;` and finally
`int32_t sampleOffset = frameCount - deltaSample;`.  Note that the clamp is
applied to `deltaSample`, not to the final `sampleOffset`. -/
def midiSampleOffset (frameCount : ℕ) (sampleRate currentTime msgTime : ℚ) : ℤ :=
  let deltaMs : ℚ := currentTime - msgTime
  let deltaSample : ℚ := deltaMs * sampleRate / 1000
  let clamped : ℚ := if (frameCount : ℚ) ≤ deltaSample then (frameCount : ℚ) - 1 else deltaSample
  truncToInt ((frameCount : ℚ) - clamped)

/-- Timed plugin events produced by the MIDI translation `switch` of
`Engine::audioCallback` (lines 192-221).  `channelAt` and `unknown` are
logged only, never forwarded to the plugin collaborator. -/
inductive MidiEvent
  | noteOn (sampleOffset : ℤ) (channel key velocity : ℕ)
  | noteOff (sampleOffset : ℤ) (channel key velocity : ℕ)
  | cc (sampleOffset : ℤ) (channel controller value : ℕ)
  | noteAt (sampleOffset : ℤ) (channel key pressure : ℕ)
  | channelAt
  | pitchBend (sampleOffset : ℤ) (channel value : ℕ)
  | unknown (eventType : ℕ)
  deriving DecidableEq, Repr

/-- Translation of one drained MIDI message (`Engine::audioCallback`,
lines 179-221).  The code reads `midiBuf[0]`, `midiBuf[1]` and `midiBuf[2]`
unconditionally (having checked only `midiBuf.empty()`), before the `switch`
on the event type; `std::vector::operator[]` performs no bounds check, so
reading a message shorter than 3 bytes is undefined behaviour, modelled here
as `none`.  Event-type dispatch follows the `MidiStatus` cases; pitch bend
reconstructs the 14-bit value as `(data2 << 7) | data1` (line 215). -/
def translateMidi (frameCount : ℕ) (sampleRate currentTime msgTime : ℚ)
    (msg : List ℕ) : Option MidiEvent :=
  match msg.get? 0, msg.get? 1, msg.get? 2 with
  | some b0, some b1, some b2 =>
    let eventType : ℕ := b0 >>> 4
    let channel : ℕ := b0 &&& 0xf
    let sampleOffset : ℤ := midiSampleOffset frameCount sampleRate currentTime msgTime
    some (match eventType with
      | 0x9 => .noteOn sampleOffset channel b1 b2
      | 0x8 => .noteOff sampleOffset channel b1 b2
      | 0xB => .cc sampleOffset channel b1 b2
      | 0xA => .noteAt sampleOffset channel b1 b2
      | 0xD => .channelAt
      | 0xE => .pitchBend sampleOffset channel ((b2 <<< 7) ||| b1)
      | t => .unknown t)
  | _, _, _ => none

/-! ## Engine state machine (Engine::start / Engine::stop / Engine::audioCallback) -/

/-- Engine lifecycle states (`kStateStopped`, `kStateRunning`,
`kStateStopping` in `engine.hh`, used throughout `engine.cc`). -/
inductive EngineState
  | stopped
  | running
  | stopping
  deriving DecidableEq, Repr

/-- Observable calls the engine makes on the plugin collaborator
(`_pluginHost`) during start/stop (`engine.cc` lines 113-114, 123). -/
inductive HostCall
  | deactivate
  | setPorts
  | activate (sampleRate : ℕ) (blockSize : ℕ)
  deriving DecidableEq, Repr

/-- Engine state visible to the claims.  `buffersBytes = some b` means all
four sample buffers `_inputs[0] _inputs[1] _outputs[0] _outputs[1]` are
allocated, each `b` bytes (`calloc(1, b)`, lines 46-53); `none` means all
four are null.  `audioOpen` / `midiOpen` model whether `_audio` / `_midiIn`
hold an open device. -/
structure Engine where
  state : EngineState
  buffersBytes : Option ℕ
  audioOpen : Bool
  midiOpen : Bool
  nframes : ℕ
  steadyTime : ℤ
  deriving DecidableEq, Repr

/-- Modelled from the spec: the field initializers live in `engine.hh`,
which is not part of `src/`; per the spec the engine starts `Stopped`, with
null buffers, no open devices, and `steadyTime` zero at construction
("never reset except at construction"). -/
def Engine.initial : Engine :=
  { state := .stopped
    buffersBytes := none
    audioOpen := false
    midiOpen := false
    nframes := 0
    steadyTime := 0 }

/-- Size of a C `float` in bytes (`sizeof(float)`, 4 on every platform the
host targets); `calloc(1, b)` thus yields a buffer of `b / 4` samples. -/
def bytesPerFloat : ℕ := 4

/-- Number of float samples held by a buffer of `b` bytes. -/
def samplesOfBytes (b : ℕ) : ℕ := b / bytesPerFloat

/-- Requested stream buffer size computed in `Engine::start` (line 88):
`unsigned int bufferSize = std::min<int>(32, as.bufferSize());` — the
minimum of the constant 32 and the user-configured size, then converted
to `unsigned int` (reduction modulo 2^32 for negative values). -/
def requestedBufferSize (userBufferSize : ℤ) : ℕ :=
  ((min 32 userBufferSize) % (2 ^ 32 : ℤ)).toNat

/-- Written from the spec sentence behind claim C3, for comparison with
`requestedBufferSize`: "the smaller of the driver-reported value and the
user-requested value". -/
def specRequestedBufferSize (driverReported userRequested : ℤ) : ℤ :=
  min driverReported userRequested

/-- Engine::stop (lines 122-145): deactivate the plugin collaborator,
transition Running→Stopping, stop/close/release the audio stream if any,
close/release the MIDI port if any, free all buffers, then force the state
to Stopped.  Returns the new engine and the trace of collaborator calls
(always exactly one `deactivate`). -/
def Engine.stop (e : Engine) : Engine × List HostCall :=
  let e1 := if e.state = .running then { e with state := .stopping } else e
  let e2 := { e1 with audioOpen := false }
  let e3 := { e2 with midiOpen := false }
  let e4 := { e3 with buffersBytes := none }
  ({ e4 with state := .stopped }, [.deactivate])

/-- The Running→Stopping transition inside `Engine::stop` (lines 125-126)
taken in isolation: this is the point a concurrently executing audio
callback can observe, before the stream is torn down (spec §5: the callback,
not the stop caller, performs the flip from Stopping to Stopped that it
reports through its return value). -/
def Engine.requestStop (e : Engine) : Engine :=
  if e.state = .running then { e with state := .stopping } else e

/-- Which step of the audio `try` block of `Engine::start` throws, if any:
creating/opening the stream (lines 94-108), `_pluginHost->activate`
(line 114), or `_audio->startStream()` (line 115). -/
inductive StartFailure
  | ok
  | openStream
  | activate
  | startStream
  deriving DecidableEq, Repr

/-- Environment a call to `Engine::start` runs in: whether opening the MIDI
device succeeds, the user-configured buffer size and sample rate from the
settings, the audio driver's (unconstrained) choice of negotiated frame
count as a function of the requested size, and which step (if any) throws. -/
structure StartEnv where
  midiOk : Bool
  userBufferSize : ℤ
  sampleRate : ℕ
  negotiate : ℕ → ℕ
  failure : StartFailure

/-- Engine::start (lines 67-120).  Asserts `_state == kStateStopped`
(line 68; violation is the fault `none`).  The MIDI block (lines 73-83)
catches every exception and resets `_midiIn`.  The audio block (lines
86-119) computes the requested buffer size, allocates all four buffers at
32*1024 bytes each **before** opening the stream, then opens the stream
(recording the driver-negotiated frame count), flips the state to Running,
calls `setPorts` and `activate` on the collaborator and starts the stream;
any exception is caught by `catch (...) { stop(); }`. -/
def Engine.start (e : Engine) (env : StartEnv) : Option (Engine × List HostCall) :=
  if e.state = .stopped then
    let eMidi := { e with midiOpen := env.midiOk }
    let req := requestedBufferSize env.userBufferSize
    let eAlloc := { eMidi with buffersBytes := some (32 * 1024) }
    match env.failure with
    | .openStream =>
      some (eAlloc.stop.1, eAlloc.stop.2)
    | .activate =>
      let eOpen := { eAlloc with
                     audioOpen := true
                     nframes := env.negotiate req
                     state := .running }
      some (eOpen.stop.1, [.setPorts, .activate env.sampleRate eOpen.nframes] ++ eOpen.stop.2)
    | .startStream =>
      let eOpen := { eAlloc with
                     audioOpen := true
                     nframes := env.negotiate req
                     state := .running }
      some (eOpen.stop.1, [.setPorts, .activate env.sampleRate eOpen.nframes] ++ eOpen.stop.2)
    | .ok =>
      let eOpen := { eAlloc with
                     audioOpen := true
                     nframes := env.negotiate req
                     state := .running }
      some (eOpen, [.setPorts, .activate env.sampleRate eOpen.nframes])
  else
    none

/-- Lifecycle effects of `Engine::audioCallback` (lines 147-244): the
asserts on buffer non-nullness and `frameCount == _nframes` (lines 157-161;
failure is the fault `none`), the `steadyTime` accumulation (line 232) and
the state `switch` deciding the return value (lines 234-243; 0 continues the
stream, 1 stops it, any other state hits `assert(false)`).  The data path of
the callback (sample copying and MIDI translation) is modelled separately by
`copyInputLoop`, `copyOutputLoop` and `translateMidi`. -/
def Engine.audioCallback (e : Engine) (frameCount : ℕ) : Option (Engine × ℤ) :=
  if e.buffersBytes = none then none
  else if frameCount ≠ e.nframes then none
  else
    let e1 := { e with steadyTime := e.steadyTime + (frameCount : ℤ) }
    match e1.state with
    | .running => some (e1, 0)
    | .stopping => some ({ e1 with state := .stopped }, 1)
    | .stopped => none

/-- An externally triggered lifecycle event: a `start` call with its
environment, a full `stop` call, the Running→Stopping step of a `stop`
call, or one invocation of the audio callback with its frame count. -/
inductive EngineEvent
  | start (env : StartEnv)
  | stop
  | requestStop
  | callback (frameCount : ℕ)

/-- One lifecycle event applied to the engine; `none` is a fault
(failed assert). -/
def Engine.step (e : Engine) : EngineEvent → Option Engine
  | .start env => (e.start env).map Prod.fst
  | .stop => some e.stop.1
  | .requestStop => some e.requestStop
  | .callback fc => (e.audioCallback fc).map Prod.fst

/-- A sequence of lifecycle events applied in order; faults propagate. -/
def Engine.run (e : Engine) : List EngineEvent → Option Engine
  | [] => some e
  | ev :: evs =>
    match e.step ev with
    | none => none
    | some e1 => e1.run evs

/-- Total frames delivered by the callback events of a list. -/
def sumFrames : List EngineEvent → ℕ
  | [] => 0
  | .callback fc :: evs => fc + sumFrames evs
  | _ :: evs => sumFrames evs

/-- Number of callback events in a list. -/
def countCallbacks : List EngineEvent → ℕ
  | [] => 0
  | .callback _ :: evs => 1 + countCallbacks evs
  | _ :: evs => countCallbacks evs

/-- Whether every callback event of the list carries frame count `F`. -/
def framesAll (F : ℕ) : List EngineEvent → Bool
  | [] => true
  | .callback fc :: evs => fc == F && framesAll F evs
  | _ :: evs => framesAll F evs

/-! ## The callback's sample-copy loops (Engine::audioCallback, lines 163-169
and 226-230).  Buffers are modelled as total functions from sample index to
sample value; the element type is abstract since the loops only move values. -/

/-- The input de-interleaving loop (lines 165-168) run for indices
`0 .. n-1`: `_inputs[0][i] = in[2*i]; _inputs[1][i] = in[2*i+1];`.
Returns the updated pair (left channel, right channel). -/
def copyInputLoop {α : Type} (inBuf : ℕ → α) (inL inR : ℕ → α) :
    ℕ → ((ℕ → α) × (ℕ → α))
  | 0 => (inL, inR)
  | n + 1 =>
    let p := copyInputLoop inBuf inL inR n
    (Function.update p.1 n (inBuf (2 * n)), Function.update p.2 n (inBuf (2 * n + 1)))

/-- The input stage of the callback (lines 164-169): the loop runs only
`if (in)`, i.e. only when the driver supplied an input buffer; otherwise the
input channels are left untouched. -/
def copyInput {α : Type} (inBuf : Option (ℕ → α)) (inL inR : ℕ → α)
    (frameCount : ℕ) : (ℕ → α) × (ℕ → α) :=
  match inBuf with
  | none => (inL, inR)
  | some f => copyInputLoop f inL inR frameCount

/-- The output re-interleaving loop (lines 227-230) run for indices
`0 .. n-1`: `out[2*i] = _outputs[0][i]; out[2*i+1] = _outputs[1][i];`. -/
def copyOutputLoop {α : Type} (outL outR : ℕ → α) (outBuf : ℕ → α) :
    ℕ → (ℕ → α)
  | 0 => outBuf
  | n + 1 =>
    let o := copyOutputLoop outL outR outBuf n
    Function.update (Function.update o (2 * n) (outL n)) (2 * n + 1) (outR n)

/-! ## Theorems -/

/-- Helper: value of the sample-offset computation for a message whose
timestamp coincides with the callback time (`deltaMs = 0`). -/
theorem midiSampleOffset_simultaneous (frameCount : ℕ) (sampleRate t : ℚ)
    (hfc : 1 ≤ frameCount) :
    midiSampleOffset frameCount sampleRate t t = frameCount := by
  have hfc1 : (1 : ℚ) ≤ (frameCount : ℚ) := by exact_mod_cast hfc
  have hpos : ¬ ((frameCount : ℚ) ≤ 0) := by linarith
  simp only [midiSampleOffset, sub_self, zero_mul, zero_div, hpos, if_false, sub_zero,
    truncToInt, Nat.cast_nonneg, if_true, Int.floor_natCast]

/-- C1, counterexample.  The spec scenario: a NoteOn with status `0x91`,
data1 60, data2 100 arriving with `deltaMs = 0` in a block of 256 frames is
dispatched at `sampleOffset = 256 = frameCount`, which is outside
`[0, frameCount - 1]`: the code clamps `deltaSample`, never the final
`sampleOffset`, so no clamp to `frameCount - 1` happens.  Moreover when
`deltaSample ≥ frameCount` the clamped value `frameCount - 1` produces
`sampleOffset = 1`, not `frameCount - 1`. -/
theorem c1_sampleOffset_counterexample :
    translateMidi 256 48000 7 7 [0x91, 60, 100] =
      some (MidiEvent.noteOn 256 1 60 100) ∧
    ¬ ((256 : ℤ) ≤ 256 - 1) ∧
    midiSampleOffset 256 48000 17 7 = 1 ∧
    (1 : ℤ) ≠ 256 - 1 := by
  refine ⟨?_, by norm_num, ?_, by norm_num⟩
  · have h := midiSampleOffset_simultaneous 256 48000 7 (by norm_num)
    simp [translateMidi, h]
    decide
  · -- deltaMs = 10, deltaSample = 480 ≥ 256, clamped to 255, offset = 256 - 255 = 1
    norm_num [midiSampleOffset, truncToInt]

/-- C1, amended.  For any message with `deltaMs ≥ 0` (and a nonnegative
sample rate, with `frameCount ≥ 1`), the computed `sampleOffset` lies in
`[0, frameCount]` — not `[0, frameCount - 1]`; whenever `deltaSample`
reaches `frameCount` the offset is exactly `1` — not `frameCount - 1`; and
a message with `deltaMs = 0` is dispatched at `sampleOffset = frameCount`,
unclamped. -/
theorem c1_sampleOffset_range (frameCount : ℕ) (sampleRate currentTime msgTime : ℚ)
    (hfc : 1 ≤ frameCount) (hsr : 0 ≤ sampleRate)
    (hdelta : 0 ≤ currentTime - msgTime) :
    0 ≤ midiSampleOffset frameCount sampleRate currentTime msgTime ∧
    midiSampleOffset frameCount sampleRate currentTime msgTime ≤ frameCount ∧
    ((frameCount : ℚ) ≤ (currentTime - msgTime) * sampleRate / 1000 →
      midiSampleOffset frameCount sampleRate currentTime msgTime = 1) ∧
    (currentTime = msgTime →
      midiSampleOffset frameCount sampleRate currentTime msgTime = frameCount) := by
  have hfc1 : (1 : ℚ) ≤ (frameCount : ℚ) := by exact_mod_cast hfc
  set d : ℚ := (currentTime - msgTime) * sampleRate / 1000 with hd
  have hd0 : 0 ≤ d := div_nonneg (mul_nonneg hdelta hsr) (by norm_num)
  have hval : midiSampleOffset frameCount sampleRate currentTime msgTime =
      truncToInt ((frameCount : ℚ) -
        (if (frameCount : ℚ) ≤ d then (frameCount : ℚ) - 1 else d)) := rfl
  by_cases hc : (frameCount : ℚ) ≤ d
  · have hone : midiSampleOffset frameCount sampleRate currentTime msgTime = 1 := by
      rw [hval, if_pos hc]
      have : (frameCount : ℚ) - ((frameCount : ℚ) - 1) = 1 := by ring
      rw [this, truncToInt, if_pos (by norm_num)]
      norm_num
    refine ⟨by rw [hone]; norm_num, by rw [hone]; exact_mod_cast hfc, fun _ => hone, ?_⟩
    intro heq
    exfalso
    rw [heq, sub_self, zero_mul, zero_div] at hd
    rw [hd] at hc
    linarith
  · push_neg at hc
    have hx0 : 0 ≤ (frameCount : ℚ) - d := by linarith
    have hxfc : (frameCount : ℚ) - d ≤ (frameCount : ℚ) := by linarith
    have hfloor : midiSampleOffset frameCount sampleRate currentTime msgTime =
        ⌊(frameCount : ℚ) - d⌋ := by
      rw [hval, if_neg (by push_neg; exact hc), truncToInt, if_pos hx0]
    refine ⟨?_, ?_, fun hcon => absurd hcon (by push_neg; exact hc), ?_⟩
    · rw [hfloor]; exact Int.floor_nonneg.mpr hx0
    · rw [hfloor]
      calc ⌊(frameCount : ℚ) - d⌋ ≤ ⌊(frameCount : ℚ)⌋ := Int.floor_le_floor hxfc
        _ = (frameCount : ℤ) := Int.floor_natCast frameCount
    · intro heq
      have : d = 0 := by rw [hd, heq, sub_self, zero_mul, zero_div]
      rw [hfloor, this, sub_zero, Int.floor_natCast]

/-- C1, witness for `c1_sampleOffset_range`: a `deltaMs = 0` message in a
256-frame block at 48 kHz gets `sampleOffset = 256`. -/
theorem c1_sampleOffset_witness :
    1 ≤ 256 ∧ midiSampleOffset 256 48000 7 7 = 256 :=
  ⟨by norm_num,
   (c1_sampleOffset_range 256 48000 7 7 (by norm_num) (by norm_num)
      (by norm_num)).2.2.2 rfl⟩

/-- C2, counterexample.  `Engine::stop` on an already-Stopped engine leaves
the engine record unchanged, but it is not free of observable calls on the
plugin collaborator: it unconditionally calls `_pluginHost->deactivate()`
(line 123), so the collaborator trace is `[deactivate]`, not empty. -/
theorem c2_stop_counterexample :
    Engine.initial.stop = (Engine.initial, [HostCall.deactivate]) ∧
    [HostCall.deactivate] ≠ ([] : List HostCall) := by
  decide

/-- C2, amended.  On an engine in the Stopped resting profile (state
Stopped, all buffers null, no open devices), `stop()` returns the engine
unchanged — same state and same (null) buffer pointers — and its only
observable effect is one redundant `deactivate` call on the plugin
collaborator; moreover `stop()` is idempotent: a second `stop()` after any
`stop()` changes nothing further. -/
theorem c2_stop_idempotent (e : Engine) (hs : e.state = .stopped)
    (hb : e.buffersBytes = none) (ha : e.audioOpen = false)
    (hm : e.midiOpen = false) :
    e.stop = (e, [HostCall.deactivate]) ∧
    ∀ e1 : Engine, e1.stop.1.stop = (e1.stop.1, [HostCall.deactivate]) := by
  constructor
  · obtain ⟨s, b, ao, mo, nf, st⟩ := e
    simp only at hs hb ha hm
    subst hs hb ha hm
    simp [Engine.stop]
  · intro e1
    obtain ⟨s, b, ao, mo, nf, st⟩ := e1
    simp [Engine.stop]

/-- C2, witness for `c2_stop_idempotent` at the freshly constructed
engine. -/
theorem c2_stop_witness :
    Engine.initial.stop = (Engine.initial, [HostCall.deactivate]) :=
  (c2_stop_idempotent Engine.initial rfl rfl rfl rfl).1

/-- C3, counterexample.  The buffer size requested from the audio driver in
`Engine::start` (line 88) is `min(32, userRequested)` — the constant 32
against the user-configured value.  For a user request of 64 the code
requests 32, whereas the claim's formula (minimum of a driver-reported
value, here 128, and the user request) gives 64. -/
theorem c3_bufferSize_counterexample :
    requestedBufferSize 64 = 32 ∧
    specRequestedBufferSize 128 64 = 64 ∧
    (32 : ℤ) ≠ 64 := by
  decide

/-- C3, amended.  For every (nonnegative, in-range) user-requested buffer
size, the size requested from the audio driver is the smaller of the
constant 32 and the user-requested value; no driver-reported value enters
the computation. -/
theorem c3_bufferSize (u : ℤ) (h0 : 0 ≤ u) (h1 : u < 2 ^ 31) :
    (requestedBufferSize u : ℤ) = min 32 u := by
  simp only [requestedBufferSize]
  omega

/-- C3, witness for `c3_bufferSize` at a user request of 64. -/
theorem c3_bufferSize_witness :
    (0 : ℤ) ≤ 64 ∧ (requestedBufferSize 64 : ℤ) = min 32 64 :=
  ⟨by norm_num, c3_bufferSize 64 (by norm_num) (by norm_num)⟩

/-- C4.  If any step inside the audio `try` block of `start()` throws
(opening the stream, activating the collaborator, or starting the stream),
`start()` returns with the engine Stopped, all four buffers freed and null,
and no open audio or MIDI device — the Stopped resting profile it had
before the call — because the `catch (...)` handler invokes `stop()`. -/
theorem c4_start_failure_unwinds (e : Engine) (env : StartEnv) (e' : Engine)
    (tr : List HostCall) (hf : env.failure ≠ .ok)
    (h : e.start env = some (e', tr)) :
    e'.state = .stopped ∧ e'.buffersBytes = none ∧ e'.audioOpen = false ∧
    e'.midiOpen = false ∧ e'.steadyTime = e.steadyTime := by
  by_cases hs : e.state = .stopped
  · obtain ⟨mk, ub, sr, ng, fl⟩ := env
    simp only [Engine.start, hs, if_true, reduceIte] at h
    cases fl with
    | ok => exact absurd rfl hf
    | openStream =>
      simp only [Engine.stop, Option.some.injEq, Prod.mk.injEq] at h
      obtain ⟨he, -⟩ := h
      subst he
      simp
    | activate =>
      simp only [Engine.stop, Option.some.injEq, Prod.mk.injEq] at h
      obtain ⟨he, -⟩ := h
      subst he
      simp
    | startStream =>
      simp only [Engine.stop, Option.some.injEq, Prod.mk.injEq] at h
      obtain ⟨he, -⟩ := h
      subst he
      simp
  · simp only [Engine.start, hs, if_false, reduceIte] at h
    exact Option.noConfusion h

/-- C4, witness: a `start()` whose stream-open step throws, called on the
freshly constructed engine, hands back exactly the initial engine. -/
theorem c4_start_failure_witness :
    Engine.initial.start ⟨true, 128, 48000, fun _ => 32, .openStream⟩ =
      some (Engine.initial, [HostCall.deactivate]) ∧
    Engine.initial.state = .stopped ∧ Engine.initial.buffersBytes = none := by
  have h : Engine.initial.start ⟨true, 128, 48000, fun _ => 32, .openStream⟩ =
      some (Engine.initial, [HostCall.deactivate]) := by decide
  have h2 := c4_start_failure_unwinds Engine.initial
    ⟨true, 128, 48000, fun _ => 32, .openStream⟩ Engine.initial
    [HostCall.deactivate] (by decide) h
  exact ⟨h, h2.1, h2.2.1⟩

/-- Helper: the audio callback faults (hits an assert) whenever the engine
is Stopped, regardless of the frame count. -/
theorem audioCallback_stopped (e : Engine) (hs : e.state = .stopped) (fc : ℕ) :
    e.audioCallback fc = none := by
  unfold Engine.audioCallback
  split
  · rfl
  · split
    · rfl
    · simp [hs]

/-- C5.  With the callback's asserts satisfied (buffers non-null,
`frameCount` equal to the negotiated block size), the stream-continuation
result depends only on the engine state: Running yields the continue signal
0 with the state unchanged; Stopping yields the stop signal 1 and flips the
state to Stopped; Stopped (the only other state) is a fault.  Consequently,
after the Running→Stopping step of a `stop()` request the next callback
returns the stop signal exactly once: it returns 1, lands in Stopped, and
every later callback invocation faults instead of returning a signal. -/
theorem c5_callback_signal (e : Engine) (fc : ℕ) (hb : e.buffersBytes ≠ none)
    (hf : fc = e.nframes) :
    (e.state = .running →
      ∃ e', e.audioCallback fc = some (e', 0) ∧ e'.state = .running) ∧
    (e.state = .stopping →
      ∃ e', e.audioCallback fc = some (e', 1) ∧ e'.state = .stopped ∧
        ∀ fc2, e'.audioCallback fc2 = none) ∧
    (e.state = .stopped → e.audioCallback fc = none) ∧
    (e.state = .running →
      e.requestStop.state = .stopping ∧
      ∃ e', e.requestStop.audioCallback fc = some (e', 1) ∧ e'.state = .stopped ∧
        ∀ fc2, e'.audioCallback fc2 = none) := by
  obtain ⟨s, b, ao, mo, nf, st⟩ := e
  simp only at hb hf
  subst hf
  refine ⟨?_, ?_, ?_, ?_⟩
  · intro hs
    simp only at hs
    subst hs
    exact ⟨⟨.running, b, ao, mo, fc, st + (fc : ℤ)⟩,
      by simp [Engine.audioCallback, hb], rfl⟩
  · intro hs
    simp only at hs
    subst hs
    refine ⟨⟨.stopped, b, ao, mo, fc, st + (fc : ℤ)⟩,
      by simp [Engine.audioCallback, hb], rfl, ?_⟩
    intro fc2
    exact audioCallback_stopped _ rfl fc2
  · intro hs
    simp only at hs
    subst hs
    exact audioCallback_stopped _ rfl _
  · intro hs
    simp only at hs
    subst hs
    refine ⟨by simp [Engine.requestStop], ⟨.stopped, b, ao, mo, fc, st + (fc : ℤ)⟩,
      by simp [Engine.requestStop, Engine.audioCallback, hb], rfl, ?_⟩
    intro fc2
    exact audioCallback_stopped _ rfl fc2

/-- C5, witness: a Running 32-frame engine, after the Running→Stopping step
of `stop()`, answers the very next callback with the stop signal 1. -/
theorem c5_callback_witness :
    (Engine.requestStop ⟨.running, some 32768, true, true, 32, 0⟩).state =
      EngineState.stopping ∧
    ((Engine.requestStop ⟨.running, some 32768, true, true, 32, 0⟩).audioCallback
        32).map Prod.snd = some 1 := by
  have h := (c5_callback_signal ⟨.running, some 32768, true, true, 32, 0⟩ 32
    (by decide) rfl).2.2.2 rfl
  obtain ⟨h1, e', h2, h3, h4⟩ := h
  exact ⟨h1, by rw [h2]; rfl⟩

/-- Helper: `stop()` never touches the monotonic sample counter. -/
theorem stop_steadyTime (e : Engine) : e.stop.1.steadyTime = e.steadyTime := by
  obtain ⟨s, b, ao, mo, nf, st⟩ := e
  cases s <;> simp [Engine.stop]

/-- Helper: the Running→Stopping step never touches the sample counter. -/
theorem requestStop_steadyTime (e : Engine) :
    e.requestStop.steadyTime = e.steadyTime := by
  unfold Engine.requestStop
  split <;> rfl

/-- Helper: `start()` never touches the monotonic sample counter. -/
theorem start_steadyTime (e : Engine) (env : StartEnv) (e' : Engine)
    (tr : List HostCall) (h : e.start env = some (e', tr)) :
    e'.steadyTime = e.steadyTime := by
  by_cases hs : e.state = .stopped
  · obtain ⟨mk, ub, sr, ng, fl⟩ := env
    simp only [Engine.start, hs, if_true, reduceIte] at h
    cases fl <;>
      · simp only [Engine.stop, Option.some.injEq, Prod.mk.injEq] at h
        obtain ⟨he, -⟩ := h
        subst he
        simp
  · simp only [Engine.start, hs, if_false, reduceIte] at h
    exact Option.noConfusion h

/-- Helper: every successful callback invocation advances the sample counter
by exactly its frame count (`engine.cc` line 232). -/
theorem callback_steadyTime (e : Engine) (fc : ℕ) (e' : Engine) (r : ℤ)
    (h : e.audioCallback fc = some (e', r)) :
    e'.steadyTime = e.steadyTime + (fc : ℤ) := by
  obtain ⟨s, b, ao, mo, nf, st⟩ := e
  unfold Engine.audioCallback at h
  split at h
  · exact Option.noConfusion h
  · split at h
    · exact Option.noConfusion h
    · cases s with
      | stopped => exact Option.noConfusion h
      | running =>
        simp only [Option.some.injEq, Prod.mk.injEq] at h
        obtain ⟨he, -⟩ := h
        subst he
        rfl
      | stopping =>
        simp only [Option.some.injEq, Prod.mk.injEq] at h
        obtain ⟨he, -⟩ := h
        subst he
        rfl

/-- Helper: over any event sequence that runs without fault, the sample
counter grows by exactly the total frames of the callback events. -/
theorem run_steadyTime (evs : List EngineEvent) (e e' : Engine)
    (h : e.run evs = some e') :
    e'.steadyTime = e.steadyTime + (sumFrames evs : ℤ) := by
  induction evs generalizing e with
  | nil =>
    simp only [Engine.run, Option.some.injEq] at h
    subst h
    simp [sumFrames]
  | cons ev evs ih =>
    rw [Engine.run] at h
    cases hstep : e.step ev with
    | none => rw [hstep] at h; exact Option.noConfusion h
    | some e1 =>
      rw [hstep] at h
      have hrest := ih e1 h
      cases ev with
      | start env =>
        simp only [Engine.step] at hstep
        cases hs : e.start env with
        | none => rw [hs] at hstep; exact Option.noConfusion hstep
        | some p =>
          rw [hs] at hstep
          simp only [Option.map_some', Option.some.injEq] at hstep
          subst hstep
          have hst := start_steadyTime e env p.1 p.2 (by rw [hs])
          have hsf : sumFrames (EngineEvent.start env :: evs) = sumFrames evs := rfl
          rw [hrest, hst, hsf]
      | stop =>
        simp only [Engine.step, Option.some.injEq] at hstep
        subst hstep
        have hsf : sumFrames (EngineEvent.stop :: evs) = sumFrames evs := rfl
        rw [hrest, stop_steadyTime, hsf]
      | requestStop =>
        simp only [Engine.step, Option.some.injEq] at hstep
        subst hstep
        have hsf : sumFrames (EngineEvent.requestStop :: evs) = sumFrames evs := rfl
        rw [hrest, requestStop_steadyTime, hsf]
      | callback fc =>
        simp only [Engine.step] at hstep
        cases hc : e.audioCallback fc with
        | none => rw [hc] at hstep; exact Option.noConfusion hstep
        | some p =>
          rw [hc] at hstep
          simp only [Option.map_some', Option.some.injEq] at hstep
          subst hstep
          have hcb := callback_steadyTime e fc p.1 p.2 (by rw [hc])
          have hsf : sumFrames (EngineEvent.callback fc :: evs) = fc + sumFrames evs := rfl
          rw [hrest, hcb, hsf]
          push_cast
          ring

/-- Helper: when every callback event carries frame count `F`, the total
frames are `F` times the number of callbacks. -/
theorem sumFrames_of_framesAll (F : ℕ) (evs : List EngineEvent)
    (h : framesAll F evs = true) :
    sumFrames evs = F * countCallbacks evs := by
  induction evs with
  | nil => simp [sumFrames, countCallbacks]
  | cons ev evs ih =>
    cases ev with
    | callback fc =>
      simp only [framesAll, Bool.and_eq_true, beq_iff_eq] at h
      obtain ⟨hfc, h2⟩ := h
      subst hfc
      have hsf : sumFrames (EngineEvent.callback fc :: evs) = fc + sumFrames evs := rfl
      have hcc : countCallbacks (EngineEvent.callback fc :: evs) =
        1 + countCallbacks evs := rfl
      rw [hsf, hcc, ih h2]
      ring
    | start env => exact ih h
    | stop => exact ih h
    | requestStop => exact ih h

/-- C6.  The monotonic sample counter `steadyTime` grows by exactly the
frame count of every callback invocation and is touched by nothing else
(`start`, `stop`, the stop request all preserve it), so it never decreases;
starting from the freshly constructed engine, after a fault-free event
sequence containing N callbacks of frame count F each — with arbitrary
intervening start/stop cycles — it equals N×F. -/
theorem c6_steadyTime :
    (∀ (e : Engine) (evs : List EngineEvent) (e' : Engine),
        e.run evs = some e' →
        e'.steadyTime = e.steadyTime + (sumFrames evs : ℤ) ∧
        e.steadyTime ≤ e'.steadyTime) ∧
    (∀ (F : ℕ) (evs : List EngineEvent) (e' : Engine),
        Engine.initial.run evs = some e' → framesAll F evs = true →
        e'.steadyTime = (F : ℤ) * (countCallbacks evs : ℤ)) := by
  constructor
  · intro e evs e' h
    have h1 := run_steadyTime evs e e' h
    refine ⟨h1, ?_⟩
    rw [h1]
    exact le_add_of_nonneg_right (by positivity)
  · intro F evs e' h hF
    have h1 := run_steadyTime evs Engine.initial e' h
    have h2 := sumFrames_of_framesAll F evs hF
    rw [h1, h2]
    show (0 : ℤ) + _ = _
    push_cast
    ring

/-- C6, witness: three 32-frame callbacks across two start/stop cycles give
`steadyTime = 96 = 32 × 3`. -/
theorem c6_steadyTime_witness :
    Engine.initial.run
        [.start ⟨true, 128, 48000, fun _ => 32, .ok⟩, .callback 32, .callback 32,
         .stop, .start ⟨true, 128, 48000, fun _ => 32, .ok⟩, .callback 32] =
      some ⟨.running, some 32768, true, true, 32, 96⟩ ∧
    (96 : ℤ) = 32 * 3 := by
  have h : Engine.initial.run
      [.start ⟨true, 128, 48000, fun _ => 32, .ok⟩, .callback 32, .callback 32,
       .stop, .start ⟨true, 128, 48000, fun _ => 32, .ok⟩, .callback 32] =
      some ⟨.running, some 32768, true, true, 32, 96⟩ := by decide
  refine ⟨h, ?_⟩
  have h2 := c6_steadyTime.2 32
    [.start ⟨true, 128, 48000, fun _ => 32, .ok⟩, .callback 32, .callback 32,
     .stop, .start ⟨true, 128, 48000, fun _ => 32, .ok⟩, .callback 32]
    ⟨.running, some 32768, true, true, 32, 96⟩ h (by decide)
  simp only at h2
  rw [h2]
  decide

/-- Helper: a successful callback invocation implies the engine was not
Stopped (the state `switch` would have hit `assert(false)`). -/
theorem callback_ne_stopped (e : Engine) (fc : ℕ) (p : Engine × ℤ)
    (h : e.audioCallback fc = some p) : e.state ≠ .stopped := by
  intro hs
  rw [audioCallback_stopped e hs fc] at h
  exact Option.noConfusion h

/-- Helper: one lifecycle step preserves the buffer invariant "whenever the
state is not Stopped, all four buffers are allocated at 32*1024 bytes". -/
theorem step_buffers (e e1 : Engine) (ev : EngineEvent)
    (hInv : e.state ≠ .stopped → e.buffersBytes = some (32 * 1024))
    (h : e.step ev = some e1) :
    e1.state ≠ .stopped → e1.buffersBytes = some (32 * 1024) := by
  cases ev with
  | start env =>
    simp only [Engine.step] at h
    cases hs : e.start env with
    | none => rw [hs] at h; exact Option.noConfusion h
    | some p =>
      rw [hs] at h
      simp only [Option.map_some', Option.some.injEq] at h
      subst h
      by_cases hst : e.state = .stopped
      · obtain ⟨mk, ub, sr, ng, fl⟩ := env
        simp only [Engine.start, hst, if_true, reduceIte] at hs
        cases fl <;>
          · simp only [Engine.stop, Option.some.injEq] at hs
            rw [← hs]
            first
            | (intro hcon; exact absurd rfl hcon)
            | (intro _; rfl)
      · simp only [Engine.start, hst, if_false, reduceIte] at hs
        exact Option.noConfusion hs
  | stop =>
    simp only [Engine.step, Option.some.injEq] at h
    subst h
    obtain ⟨s, b, ao, mo, nf, st⟩ := e
    cases s <;> simp [Engine.stop]
  | requestStop =>
    simp only [Engine.step, Option.some.injEq] at h
    subst h
    obtain ⟨s, b, ao, mo, nf, st⟩ := e
    cases s with
    | running => intro _; exact hInv (by simp)
    | stopped => intro hcon; simp [Engine.requestStop] at hcon
    | stopping => intro _; exact hInv (by simp)
  | callback fc =>
    simp only [Engine.step] at h
    cases hc : e.audioCallback fc with
    | none => rw [hc] at h; exact Option.noConfusion h
    | some p =>
      rw [hc] at h
      simp only [Option.map_some', Option.some.injEq] at h
      subst h
      obtain ⟨s, b, ao, mo, nf, st⟩ := e
      unfold Engine.audioCallback at hc
      split at hc
      · exact Option.noConfusion hc
      · split at hc
        · exact Option.noConfusion hc
        · cases s with
          | stopped => exact Option.noConfusion hc
          | running =>
            simp only [Option.some.injEq] at hc
            rw [← hc]
            intro _
            exact hInv (by simp)
          | stopping =>
            simp only [Option.some.injEq] at hc
            rw [← hc]
            intro hcon
            exact absurd rfl hcon

/-- Helper: the buffer invariant holds in every state reachable from a
state satisfying it. -/
theorem run_buffers (evs : List EngineEvent) (e e' : Engine)
    (hInv : e.state ≠ .stopped → e.buffersBytes = some (32 * 1024))
    (h : e.run evs = some e') :
    e'.state ≠ .stopped → e'.buffersBytes = some (32 * 1024) := by
  induction evs generalizing e with
  | nil =>
    simp only [Engine.run, Option.some.injEq] at h
    subst h
    exact hInv
  | cons ev evs ih =>
    rw [Engine.run] at h
    cases hstep : e.step ev with
    | none => rw [hstep] at h; exact Option.noConfusion h
    | some e1 =>
      rw [hstep] at h
      exact ih e1 (step_buffers e e1 ev hInv hstep) h

/-- C7, counterexample.  The code allocates each buffer at 32*1024 bytes,
i.e. 8192 four-byte float samples (line 91), and nothing bounds the
driver-negotiated frame count by that capacity: if the driver negotiates
9000 frames, the engine runs (state not Stopped, buffers non-null) and the
callback executes without fault with `frameCount = 9000`, yet the buffers
hold only 8192 samples — fewer than `frameCount`.  So "at least `frameCount`
samples long for every callback invocation" fails. -/
theorem c7_buffers_counterexample :
    Engine.initial.run [.start ⟨false, 128, 48000, fun _ => 9000, .ok⟩] =
      some ⟨.running, some (32 * 1024), true, false, 9000, 0⟩ ∧
    EngineState.running ≠ EngineState.stopped ∧
    samplesOfBytes (32 * 1024) < 9000 ∧
    (Engine.audioCallback ⟨.running, some (32 * 1024), true, false, 9000, 0⟩ 9000).isSome =
      true := by
  refine ⟨by decide, by decide, by decide, by decide⟩

/-- C7, amended.  Whenever a state reachable from the freshly constructed
engine is not Stopped, all four sample buffers are non-null, each of
capacity 32*1024 bytes (8192 four-byte samples): they are allocated before
the stream is opened and freed only by `stop()`.  Consequently every
successful callback invocation whose frame count is at most 8192 samples
finds buffers at least `frameCount` samples long; the code does not,
however, force the driver-negotiated frame count under that bound. -/
theorem c7_buffers_invariant :
    (∀ (evs : List EngineEvent) (e' : Engine),
        Engine.initial.run evs = some e' → e'.state ≠ .stopped →
        e'.buffersBytes = some (32 * 1024)) ∧
    (∀ (evs : List EngineEvent) (e' : Engine) (fc : ℕ) (p : Engine × ℤ),
        Engine.initial.run evs = some e' →
        e'.audioCallback fc = some p →
        fc ≤ samplesOfBytes (32 * 1024) →
        ∃ b, e'.buffersBytes = some b ∧ fc ≤ samplesOfBytes b) := by
  have hbase : ∀ (evs : List EngineEvent) (e' : Engine),
      Engine.initial.run evs = some e' → e'.state ≠ .stopped →
      e'.buffersBytes = some (32 * 1024) := by
    intro evs e' h
    exact run_buffers evs Engine.initial e' (fun hcon => absurd rfl hcon) h
  refine ⟨hbase, ?_⟩
  intro evs e' fc p hrun hcb hfc
  exact ⟨32 * 1024, hbase evs e' hrun (callback_ne_stopped e' fc p hcb), hfc⟩

/-- C7, witness for `c7_buffers_invariant`: after a successful `start()`
negotiating 32 frames, the running engine holds 32*1024-byte buffers. -/
theorem c7_buffers_witness :
    (⟨.running, some (32 * 1024), true, true, 32, 0⟩ : Engine).buffersBytes =
      some (32 * 1024) :=
  c7_buffers_invariant.1 [.start ⟨true, 128, 48000, fun _ => 32, .ok⟩]
    ⟨.running, some (32 * 1024), true, true, 32, 0⟩ (by decide) (by decide)

/-- Helper: after `n` iterations of the input loop, every index below `n`
holds the de-interleaved driver samples. -/
theorem copyInputLoop_lt {α : Type} (inBuf inL inR : ℕ → α) (n i : ℕ)
    (h : i < n) :
    (copyInputLoop inBuf inL inR n).1 i = inBuf (2 * i) ∧
    (copyInputLoop inBuf inL inR n).2 i = inBuf (2 * i + 1) := by
  induction n with
  | zero => omega
  | succ n ih =>
    simp only [copyInputLoop]
    by_cases hi : i = n
    · subst hi
      exact ⟨Function.update_same i _ _, Function.update_same i _ _⟩
    · have hlt : i < n := by omega
      rw [Function.update_noteq hi, Function.update_noteq hi]
      exact ih hlt

/-- Helper: the input loop leaves every index at or beyond its bound
untouched. -/
theorem copyInputLoop_ge {α : Type} (inBuf inL inR : ℕ → α) (n i : ℕ)
    (h : n ≤ i) :
    (copyInputLoop inBuf inL inR n).1 i = inL i ∧
    (copyInputLoop inBuf inL inR n).2 i = inR i := by
  induction n with
  | zero => exact ⟨rfl, rfl⟩
  | succ n ih =>
    simp only [copyInputLoop]
    have hi : i ≠ n := by omega
    rw [Function.update_noteq hi, Function.update_noteq hi]
    exact ih (by omega)

/-- Helper: after `n` iterations of the output loop, every pair of
interleaved indices below `2*n` holds the corresponding mono samples. -/
theorem copyOutputLoop_lt {α : Type} (outL outR outBuf : ℕ → α) (n i : ℕ)
    (h : i < n) :
    copyOutputLoop outL outR outBuf n (2 * i) = outL i ∧
    copyOutputLoop outL outR outBuf n (2 * i + 1) = outR i := by
  induction n with
  | zero => omega
  | succ n ih =>
    simp only [copyOutputLoop]
    by_cases hi : i = n
    · subst hi
      constructor
      · rw [Function.update_noteq (by omega), Function.update_same]
      · rw [Function.update_same]
    · have hlt : i < n := by omega
      rw [Function.update_noteq (by omega), Function.update_noteq (by omega),
        Function.update_noteq (by omega), Function.update_noteq (by omega)]
      exact ih hlt

/-- Helper: the output loop writes nothing at or beyond index `2*n`. -/
theorem copyOutputLoop_ge {α : Type} (outL outR outBuf : ℕ → α) (n j : ℕ)
    (h : 2 * n ≤ j) :
    copyOutputLoop outL outR outBuf n j = outBuf j := by
  induction n with
  | zero => rfl
  | succ n ih =>
    simp only [copyOutputLoop]
    rw [Function.update_noteq (by omega), Function.update_noteq (by omega)]
    exact ih (by omega)

/-- C8.  Per callback with `frameCount` frames: when the driver supplies an
input buffer, exactly the first `frameCount` interleaved frames are
de-interleaved into the two mono input channels (`in[2i]` to the left
channel, `in[2i+1]` to the right, indices at or beyond `frameCount`
untouched); when no input buffer is supplied the input channels are left
entirely untouched; and exactly `frameCount` mono samples per channel are
re-interleaved into the output buffer (`out[2i] = left[i]`,
`out[2i+1] = right[i]`, indices at or beyond `2*frameCount` untouched). -/
theorem c8_copy_loops (α : Type) (inBuf inL inR outL outR outBuf : ℕ → α)
    (frameCount : ℕ) :
    (∀ i, i < frameCount →
      (copyInput (some inBuf) inL inR frameCount).1 i = inBuf (2 * i) ∧
      (copyInput (some inBuf) inL inR frameCount).2 i = inBuf (2 * i + 1)) ∧
    (∀ i, frameCount ≤ i →
      (copyInput (some inBuf) inL inR frameCount).1 i = inL i ∧
      (copyInput (some inBuf) inL inR frameCount).2 i = inR i) ∧
    copyInput none inL inR frameCount = (inL, inR) ∧
    (∀ i, i < frameCount →
      copyOutputLoop outL outR outBuf frameCount (2 * i) = outL i ∧
      copyOutputLoop outL outR outBuf frameCount (2 * i + 1) = outR i) ∧
    (∀ j, 2 * frameCount ≤ j →
      copyOutputLoop outL outR outBuf frameCount j = outBuf j) :=
  ⟨fun i hi => copyInputLoop_lt inBuf inL inR frameCount i hi,
   fun i hi => copyInputLoop_ge inBuf inL inR frameCount i hi,
   rfl,
   fun i hi => copyOutputLoop_lt outL outR outBuf frameCount i hi,
   fun j hj => copyOutputLoop_ge outL outR outBuf frameCount j hj⟩

/-- C8, witness: with the identity function as driver input over a 2-frame
block, the left channel at index 1 receives sample `in[2] = 2`, and the
interleaved output at index 3 receives the right channel's sample at 1. -/
theorem c8_copy_witness :
    (copyInput (some (fun i => i)) (fun _ => 0) (fun _ => 0) 2).1 1 = 2 ∧
    copyOutputLoop (fun i => 10 + i) (fun i => 20 + i) (fun _ => 0) 2 3 = 21 := by
  have h := c8_copy_loops ℕ (fun i => i) (fun _ => 0) (fun _ => 0)
    (fun i => 10 + i) (fun i => 20 + i) (fun _ => 0) 2
  refine ⟨(h.1 1 (by norm_num)).1, ?_⟩
  have h2 := (h.2.2.2.1 1 (by norm_num)).2
  norm_num at h2
  exact h2

/-- C9.  A failure while opening the MIDI device during `start()` is never
fatal to the audio path: with the MIDI open failing, `start()` still
returns (no fault), the MIDI handle ends up null, the collaborator trace is
identical to the successful-MIDI run of the same environment, and the
resulting engine agrees with that run on state, buffers, audio handle and
negotiated frame count — only the MIDI handle differs. -/
theorem c9_midi_optional (e : Engine) (env : StartEnv) (hs : e.state = .stopped) :
    ∃ (e' : Engine) (tr : List HostCall),
      e.start { env with midiOk := false } = some (e', tr) ∧
      e'.midiOpen = false ∧
      ∃ e'' : Engine, e.start { env with midiOk := true } = some (e'', tr) ∧
        e'.state = e''.state ∧ e'.buffersBytes = e''.buffersBytes ∧
        e'.audioOpen = e''.audioOpen ∧ e'.nframes = e''.nframes := by
  obtain ⟨s, b, ao, mo, nf, st⟩ := e
  simp only at hs
  subst hs
  obtain ⟨mk, ub, sr, ng, fl⟩ := env
  cases fl with
  | openStream =>
    exact ⟨⟨.stopped, none, false, false, nf, st⟩, [.deactivate], rfl, rfl,
      ⟨.stopped, none, false, false, nf, st⟩, rfl, rfl, rfl, rfl, rfl⟩
  | activate =>
    exact ⟨⟨.stopped, none, false, false, ng (requestedBufferSize ub), st⟩,
      [.setPorts, .activate sr (ng (requestedBufferSize ub)), .deactivate],
      rfl, rfl,
      ⟨.stopped, none, false, false, ng (requestedBufferSize ub), st⟩,
      rfl, rfl, rfl, rfl, rfl⟩
  | startStream =>
    exact ⟨⟨.stopped, none, false, false, ng (requestedBufferSize ub), st⟩,
      [.setPorts, .activate sr (ng (requestedBufferSize ub)), .deactivate],
      rfl, rfl,
      ⟨.stopped, none, false, false, ng (requestedBufferSize ub), st⟩,
      rfl, rfl, rfl, rfl, rfl⟩
  | ok =>
    exact ⟨⟨.running, some (32 * 1024), true, false, ng (requestedBufferSize ub), st⟩,
      [.setPorts, .activate sr (ng (requestedBufferSize ub))],
      rfl, rfl,
      ⟨.running, some (32 * 1024), true, true, ng (requestedBufferSize ub), st⟩,
      rfl, rfl, rfl, rfl, rfl⟩

/-- C9, witness: starting the fresh engine with a failing MIDI open still
succeeds and leaves the MIDI handle null. -/
theorem c9_midi_witness :
    (Engine.initial.start
        { (⟨true, 128, 48000, fun _ => 32, .ok⟩ : StartEnv) with midiOk := false }).map
      (fun p => p.1.midiOpen) = some false := by
  obtain ⟨e', tr, h1, h2, -⟩ := c9_midi_optional Engine.initial
    ⟨true, 128, 48000, fun _ => 32, .ok⟩ rfl
  rw [h1]
  simp only [Option.map_some']
  rw [h2]

/-- C10.  Every drained (hence non-empty) MIDI message is translated by
unconditionally reading bytes 0, 1 and 2 before the event-type dispatch, so
the reads are in bounds exactly when the message is at least 3 bytes long:
for every shorter message (1-byte real-time or 2-byte program-change
messages, which are delivered since `ignoreTypes(false,false,false)` is
set) the read of index 1 or 2 is out of bounds; for every message of 3 or
more bytes the translation produces an event. -/
theorem c10_short_message_reads (msg : List ℕ) (hne : msg ≠ []) :
    (msg.length < 3 →
      ∀ (fc : ℕ) (sr ct mt : ℚ), translateMidi fc sr ct mt msg = none) ∧
    (3 ≤ msg.length →
      ∀ (fc : ℕ) (sr ct mt : ℚ), ∃ ev, translateMidi fc sr ct mt msg = some ev) := by
  match msg with
  | [] => exact absurd rfl hne
  | [b0] =>
    refine ⟨fun _ fc sr ct mt => rfl, fun h3 => ?_⟩
    norm_num at h3
  | [b0, b1] =>
    refine ⟨fun _ fc sr ct mt => rfl, fun h3 => ?_⟩
    norm_num at h3
  | b0 :: b1 :: b2 :: rest =>
    refine ⟨fun hlen => ?_, fun _ fc sr ct mt => ⟨_, rfl⟩⟩
    simp only [List.length_cons] at hlen
    omega

/-- C10, witness: a 1-byte MIDI real-time clock message (0xF8) makes the
translator read out of bounds. -/
theorem c10_short_message_witness :
    translateMidi 256 48000 0 0 [0xF8] = none :=
  (c10_short_message_reads [0xF8] (by decide)).1 (by decide) 256 48000 0 0
